import Mathlib

/-!
Verification development for the Pac-Man AI decision engine.

The definitions below are a shallow embedding of the engine's source
(`PacmanAI` module): pixel/grid geometry, the Bayesian ghost-behavior
model, the anti-oscillation penalty, the static evaluator, minimax with
alpha-beta, expectimax, and the tunnel-aware A* search.

Modelling conventions:
- JavaScript numbers used by the engine are modelled by `ℤ` (pixel and
  grid coordinates, counts) and `ℚ` (scores and probabilities); the
  values `-Infinity`/`Infinity` that flow through minimax/expectimax
  accumulators are modelled by the three-valued type `JNum`, and the
  `x || Infinity` score lookups of A* by `WithTop ℤ` together with
  `jsOrInf` (JavaScript treats both `undefined` and `0` as falsy).
- JavaScript objects used as dictionaries are modelled by functions into
  `Option` (a missing key is `none`); reading a property of `undefined`
  throws in JavaScript, which is modelled by an `Option`-valued result
  (`none` = the call throws).
- String keys built from integers (`"x,y"` position keys, situation keys
  such as `"RU_near"`) are injective images of the underlying data, so
  they are modelled by that data directly (`Pt`, `SitKey`).
- The engine's stats/telemetry object, `localStorage` persistence and
  node counters are observational only and are omitted; the direction
  constants, `Pacman.BISCUIT`/`Pacman.PILL` cell codes and the map
  object's `isFloorSpace`/`getMap` interface belong to the external base
  engine and are modelled from the spec's Map Query interface.
-/

/-- Direction vocabulary of the engine: the four moves plus NONE. -/
inductive Dir where
  | up
  | down
  | left
  | right
  | none
deriving DecidableEq, Repr

/-- Integer coordinate pair; used both for pixel positions and for grid
cells (the source uses `{x, y}` objects for both, and uses the string
`x + ',' + y` as a dictionary key, which determines `(x, y)` uniquely). -/
structure Pt where
  x : ℤ
  y : ℤ
deriving DecidableEq, Repr

/-- Pointwise addition of a delta to a position. -/
def padd (a b : Pt) : Pt := ⟨a.x + b.x, a.y + b.y⟩

/-- JavaScript `Math.round(n / 10)` for an integer `n`: round half toward
positive infinity, i.e. `⌊(n + 5) / 10⌋`. -/
def round10 (n : ℤ) : ℤ := (n + 5).fdiv 10

/-- Source `toGrid`: convert a pixel position to a grid cell. -/
def toGrid (pos : Pt) : Pt := ⟨round10 pos.x, round10 pos.y⟩

/-- Source `manhattanDistance`. -/
def manhattanDistance (pos1 pos2 : Pt) : ℤ :=
  |pos1.x - pos2.x| + |pos1.y - pos2.y|

/-- Source constant `TUNNEL_ROW`. -/
def TUNNEL_ROW : ℤ := 10

/-- Source constant `MAP_WIDTH`. -/
def MAP_WIDTH : ℤ := 19

/-- Source `tunnelAwareDistance`: minimum of the direct Manhattan
distance and the two tunnel-crossing routes. -/
def tunnelAwareDistance (pos1 pos2 : Pt) : ℤ :=
  let directDist := manhattanDistance pos1 pos2
  let pos1ToTunnelLeft := |pos1.x - 0| + |pos1.y - TUNNEL_ROW|
  let pos1ToTunnelRight := |pos1.x - (MAP_WIDTH - 1)| + |pos1.y - TUNNEL_ROW|
  let pos2ToTunnelLeft := |pos2.x - 0| + |pos2.y - TUNNEL_ROW|
  let pos2ToTunnelRight := |pos2.x - (MAP_WIDTH - 1)| + |pos2.y - TUNNEL_ROW|
  let tunnelDist := min (pos1ToTunnelLeft + 1 + pos2ToTunnelRight)
                        (pos1ToTunnelRight + 1 + pos2ToTunnelLeft)
  min directDist tunnelDist

/-- Modelled from the spec: cell-kind code for a plain pellet in the
external base engine's map data (`Pacman.BISCUIT`); only (in)equality of
the codes matters to the engine. -/
def Pacman.BISCUIT : ℕ := 1

/-- Modelled from the spec: cell-kind code for a power pellet in the
external base engine's map data (`Pacman.PILL`). -/
def Pacman.PILL : ℕ := 4

/-- Modelled from the spec: the external map collaborator, restricted to
the query interface the engine consumes: `isFloorSpace(cell)` on grid
cells and `getMap()` returning the 2-D array of cell-kind codes. -/
structure GameMap where
  isFloorSpace : Pt → Bool
  getMap : List (List ℕ)

/-- Grid-step deltas (the `deltas` tables with `±1` entries). `Dir.none`
is never looked up by the source (its guards exclude it); it is mapped to
the zero delta. -/
def delta1 : Dir → Pt
  | Dir.up => ⟨0, -1⟩
  | Dir.down => ⟨0, 1⟩
  | Dir.left => ⟨-1, 0⟩
  | Dir.right => ⟨1, 0⟩
  | Dir.none => ⟨0, 0⟩

/-- Pixel-step deltas (the `deltas` tables with `±10` entries). -/
def delta10 : Dir → Pt
  | Dir.up => ⟨0, -10⟩
  | Dir.down => ⟨0, 10⟩
  | Dir.left => ⟨-10, 0⟩
  | Dir.right => ⟨10, 0⟩
  | Dir.none => ⟨0, 0⟩

/-- Source `opposites` table. It has no entry for NONE (all uses are
guarded); NONE is mapped to itself. -/
def opposite : Dir → Dir
  | Dir.up => Dir.down
  | Dir.down => Dir.up
  | Dir.left => Dir.right
  | Dir.right => Dir.left
  | Dir.none => Dir.none

/-- Source `getValidMoves`: test the four grid neighbors against the map
in the enumeration order UP, DOWN, LEFT, RIGHT. -/
def getValidMoves (map : GameMap) (pos : Pt) : List Dir :=
  [Dir.up, Dir.down, Dir.left, Dir.right].filter (fun dir =>
    map.isFloorSpace (padd (toGrid pos) (delta1 dir)))

/-! ## Ghost behavior model (Bayesian learning) -/

/-- Horizontal bucket of a situation key (source characters R, L, H). -/
inductive HBucket where
  | R
  | L
  | H
deriving DecidableEq, Repr

/-- Vertical bucket of a situation key (source characters D, U, V). -/
inductive VBucket where
  | D
  | U
  | V
deriving DecidableEq, Repr

/-- Distance bucket of a situation key (source strings near, mid, far). -/
inductive DistBucket where
  | near
  | mid
  | far
deriving DecidableEq, Repr

/-- A situation key. The source builds the string
`horizontal + vertical + '_' + distCat`, which is an injective image of
this triple, so the triple is used directly as the dictionary key. -/
structure SitKey where
  hb : HBucket
  vb : VBucket
  db : DistBucket
deriving DecidableEq, Repr

/-- Source `getSituation`: discretize the relative position of the agent
with respect to a ghost. -/
def getSituation (ghostPos pacmanPos : Pt) : SitKey :=
  let gx := round10 ghostPos.x
  let gy := round10 ghostPos.y
  let px := round10 pacmanPos.x
  let py := round10 pacmanPos.y
  let dx := px - gx
  let dy := py - gy
  let horizontal := if dx > 2 then HBucket.R else if dx < -2 then HBucket.L else HBucket.H
  let vertical := if dy > 2 then VBucket.D else if dy < -2 then VBucket.U else VBucket.V
  let dist := |dx| + |dy|
  let distCat := if dist < 5 then DistBucket.near else if dist < 10 then DistBucket.mid else DistBucket.far
  ⟨horizontal, vertical, distCat⟩

/-- One situation bucket: observed move counts for the four non-NONE
directions. `recordGhostMove` creates every bucket with all four
directions present (zero), so the bucket is total over the four fields. -/
structure DirCounts where
  up : ℕ
  down : ℕ
  left : ℕ
  right : ℕ
deriving DecidableEq, Repr

/-- Increment the count of one direction (the `[move]++` update). NONE is
excluded by the caller's guard and leaves the bucket unchanged. -/
def DirCounts.incr (b : DirCounts) : Dir → DirCounts
  | Dir.up => { b with up := b.up + 1 }
  | Dir.down => { b with down := b.down + 1 }
  | Dir.left => { b with left := b.left + 1 }
  | Dir.right => { b with right := b.right + 1 }
  | Dir.none => b

/-- The four learned move probabilities returned by a query (the source
returns an object with exactly the keys UP, DOWN, LEFT, RIGHT). -/
structure DirProbs where
  up : ℚ
  down : ℚ
  left : ℚ
  right : ℚ
deriving DecidableEq, Repr

/-- Field access by direction (`probs[dir]`). The source never reads the
NONE key; it is mapped to 0. -/
def DirProbs.get (p : DirProbs) : Dir → ℚ
  | Dir.up => p.up
  | Dir.down => p.down
  | Dir.left => p.left
  | Dir.right => p.right
  | Dir.none => 0

/-- The module-level learning state: `ghostObservations` (ghost index →
situation → counts; `none` models a missing dictionary key) and
`totalObservations`. -/
structure GhostModel where
  obs : ℕ → Option (SitKey → Option DirCounts)
  total : ℕ

/-- The freshly initialized model: the startup loop creates an empty
table for each of the four ghost indices 0..3. -/
def initGhostModel : GhostModel :=
  { obs := fun i => if i < 4 then some (fun _ => Option.none) else Option.none
    total := 0 }

/-- Source constant `SMOOTHING` (Laplace smoothing pseudo-count). -/
def SMOOTHING : ℕ := 1

/-- Source `recordGhostMove`. Returns `none` when the source would throw
(reading `ghostObservations[ghostIdx][situation]` with a ghost index that
has no table). The stats-confidence update and the periodic
`saveGhostModel` flush are observational/persistence effects outside the
model. -/
def recordGhostMove (m : GhostModel) (ghostIdx : ℕ) (ghostPos pacmanPos : Pt)
    (move : Dir) : Option GhostModel :=
  if move = Dir.none then some m
  else
    match m.obs ghostIdx with
    | Option.none => Option.none
    | some tbl =>
      let situation := getSituation ghostPos pacmanPos
      let bucket :=
        match tbl situation with
        | Option.none => ({ up := 0, down := 0, left := 0, right := 0 } : DirCounts)
        | some b => b
      let bucket' := bucket.incr move
      some { obs := fun i =>
               if i = ghostIdx then
                 some (fun s => if s = situation then some bucket' else tbl s)
               else m.obs i
             total := m.total + 1 }

/-- Source `getGhostMoveProbabilities`. The result pairs the returned
probabilities with the learning state after the call (the source body
performs no assignment to `ghostObservations` or `totalObservations`, so
the embedding returns the input state). `none` models the throw on a
ghost index that has no table. -/
def getGhostMoveProbabilities (m : GhostModel) (ghostIdx : ℕ)
    (ghostPos pacmanPos : Pt) : Option (DirProbs × GhostModel) :=
  match m.obs ghostIdx with
  | Option.none => Option.none
  | some tbl =>
    match tbl (getSituation ghostPos pacmanPos) with
    | Option.none => some (⟨1/4, 1/4, 1/4, 1/4⟩, m)
    | some obs =>
      let total : ℚ :=
        ((SMOOTHING * 4 + (obs.up + obs.down + obs.left + obs.right) : ℕ) : ℚ)
      some (⟨((obs.up + SMOOTHING : ℕ) : ℚ) / total,
             ((obs.down + SMOOTHING : ℕ) : ℚ) / total,
             ((obs.left + SMOOTHING : ℕ) : ℚ) / total,
             ((obs.right + SMOOTHING : ℕ) : ℚ) / total⟩, m)

/-- Probability query as consumed inside the searches (the searches read
the returned object only; projecting away the unchanged state component
is justified by `moveProbabilities_read_pure` below). -/
def probsOnly (m : GhostModel) (ghostIdx : ℕ) (ghostPos pacmanPos : Pt) :
    Option DirProbs :=
  (getGhostMoveProbabilities m ghostIdx ghostPos pacmanPos).map Prod.fst

/-! ## Anti-oscillation tracker -/

/-- The tracker's game-scoped state: `moveHistory` (recent grid-cell keys,
oldest first, as the source pushes at the end and shifts from the front)
and `positionVisitCount`. -/
structure OscState where
  moveHistory : List Pt
  positionVisitCount : Pt → ℕ

/-- Source `getOscillationPenalty`: reversal penalty, recency-weighted
history penalty, and quadratic visit-count penalty. A JavaScript
`undefined` last move and the NONE last move are excluded by the same
guard and are both modelled by `Dir.none`. -/
def getOscillationPenalty (st : OscState) (pos : Pt) (move lastMove : Dir) : ℚ :=
  let reversal : ℚ :=
    if lastMove ≠ Dir.none ∧ move = opposite lastMove then 50 else 0
  let newPos := padd (toGrid pos) (delta1 move)
  let len := st.moveHistory.length
  let history : ℚ :=
    (st.moveHistory.enum.map (fun ie =>
      if ie.2 = newPos then 50 * (1 + ((len : ℚ) - ie.1) / len) else 0)).sum
  let visitCount := st.positionVisitCount newPos
  let visit : ℚ :=
    if visitCount > 2 then ((visitCount : ℚ) - 2) ^ 2 * 30 else 0
  reversal + history + visit

/-! ## Static evaluator -/

/-- Per-opponent threat flags as passed in by the driver. -/
structure ThreatState where
  isEdible : Bool
  isDangerous : Bool
deriving DecidableEq, Repr

/-- Read `mapData[y][x]`: `none` models an out-of-range (undefined) row or
cell, which compares unequal to any cell code. -/
def cellAt (mapData : List (List ℕ)) (y x : ℤ) : Option ℕ :=
  if y < 0 then Option.none
  else
    match mapData.get? y.toNat with
    | Option.none => Option.none
    | some row => if x < 0 then Option.none else row.get? x.toNat

/-- Source `findNearestPellet`: scan the map row-major for BISCUIT or
PILL cells, keeping the first cell attaining the strictly smallest
Manhattan distance. -/
def findNearestPellet (map : GameMap) (pos : Pt) : Option Pt :=
  let cells :=
    (map.getMap.enum.map (fun yrow =>
      yrow.2.enum.map (fun xc => ((⟨xc.1, yrow.1⟩ : Pt), xc.2)))).flatten
  (cells.foldl (fun acc cell =>
    if cell.2 = Pacman.BISCUIT ∨ cell.2 = Pacman.PILL then
      let dist := manhattanDistance pos cell.1
      match acc with
      | (_, Option.none) => (some cell.1, some dist)
      | (best, some minDist) =>
        if dist < minDist then (some cell.1, some dist) else (best, some minDist)
    else acc) ((Option.none : Option Pt), (Option.none : Option ℤ))).1

/-- Minimum Manhattan distance from a grid cell to a list of (pixel)
ghost positions; `⊤` is the JavaScript `Math.min()` of an empty list
(never compared by the source, whose guards require a nonempty list). -/
def nearestGhostDist (pacmanGrid : Pt) (ghosts : List Pt) : WithTop ℤ :=
  (ghosts.map (fun g => ((manhattanDistance pacmanGrid (toGrid g) : ℤ) : WithTop ℤ))).foldr min ⊤

/-- Source `evaluateState`: the hand-tuned static position score. The
opponents are partitioned by `isEdible` alone, exactly as the source's
loop does. -/
def evaluateState (map : GameMap) (pacmanPos : Pt) (ghostPositions : List Pt)
    (ghostStates : List ThreatState) : ℚ :=
  let pacmanGrid := toGrid pacmanPos
  let pairs := ghostPositions.zip ghostStates
  let dangerousGhosts := (pairs.filter (fun gs => !gs.2.isEdible)).map Prod.fst
  let edibleGhosts := (pairs.filter (fun gs => gs.2.isEdible)).map Prod.fst
  let dangerScore : ℚ :=
    (dangerousGhosts.map (fun g =>
      let dist := manhattanDistance pacmanGrid (toGrid g)
      if dist < 2 then (-2000 : ℚ)
      else if dist < 4 then -500 / (dist : ℚ)
      else if dist < 8 then -50 / (dist : ℚ)
      else 0)).sum
  let edibleScore : ℚ :=
    (edibleGhosts.map (fun g =>
      let dist := manhattanDistance pacmanGrid (toGrid g)
      if dist = 0 then (1000 : ℚ)
      else if dist < 5 then 400 / (dist : ℚ)
      else if dist < 10 then 100 / (dist : ℚ)
      else 0)).sum
  let biscuitScore : ℚ :=
    if cellAt map.getMap pacmanGrid.y pacmanGrid.x = some Pacman.BISCUIT then 50 else 0
  let pillScore : ℚ :=
    if cellAt map.getMap pacmanGrid.y pacmanGrid.x = some Pacman.PILL then
      (if dangerousGhosts.length > 0 ∧ edibleGhosts.length = 0 ∧
          nearestGhostDist pacmanGrid dangerousGhosts < (10 : ℤ) then 500 else 150)
    else 0
  let shaping : ℚ :=
    if edibleGhosts.length = 0 ∧ (dangerousGhosts.length = 0 ∨
        (8 : ℤ) < nearestGhostDist pacmanGrid dangerousGhosts) then
      match findNearestPellet map pacmanGrid with
      | some nearestPellet => 30 - (manhattanDistance pacmanGrid nearestPellet : ℚ)
      | Option.none => 0
    else 0
  dangerScore + edibleScore + biscuitScore + pillScore + shaping

/-! ## JavaScript-number lattice for search accumulators -/

/-- A JavaScript number as used by the search accumulators: a finite
rational, `-Infinity`, or `Infinity` (NaN never arises on the executed
paths). -/
inductive JNum where
  | negInf
  | fin (q : ℚ)
  | posInf
deriving DecidableEq, Repr

/-- JavaScript `a < b` on non-NaN numbers. -/
def jlt : JNum → JNum → Bool
  | JNum.negInf, JNum.negInf => false
  | JNum.negInf, _ => true
  | JNum.fin _, JNum.negInf => false
  | JNum.fin q, JNum.fin r => decide (q < r)
  | JNum.fin _, JNum.posInf => true
  | JNum.posInf, _ => false

/-- JavaScript `a <= b` on non-NaN numbers. -/
def jle : JNum → JNum → Bool
  | JNum.negInf, _ => true
  | JNum.fin _, JNum.negInf => false
  | JNum.fin q, JNum.fin r => decide (q ≤ r)
  | JNum.fin _, JNum.posInf => true
  | JNum.posInf, JNum.posInf => true
  | JNum.posInf, _ => false

/-- JavaScript `Math.max(a, b)` on non-NaN numbers. -/
def jmax (a b : JNum) : JNum := if jle a b then b else a

/-- JavaScript `Math.min(a, b)` on non-NaN numbers. -/
def jmin (a b : JNum) : JNum := if jle a b then a else b

/-- Subtract a finite rational from a JavaScript number
(`score -= penalty`; the infinities absorb the subtraction). -/
def jsub (a : JNum) (q : ℚ) : JNum :=
  match a with
  | JNum.fin r => JNum.fin (r - q)
  | JNum.negInf => JNum.negInf
  | JNum.posInf => JNum.posInf

/-- Addition on JavaScript numbers. The source only ever adds a finite
number to a possibly-infinite accumulator, so the `Infinity + -Infinity`
(NaN) case is unreachable; it is mapped to `fin 0`. -/
def jadd : JNum → JNum → JNum
  | JNum.fin q, JNum.fin r => JNum.fin (q + r)
  | JNum.negInf, JNum.posInf => JNum.fin 0
  | JNum.posInf, JNum.negInf => JNum.fin 0
  | JNum.negInf, _ => JNum.negInf
  | _, JNum.negInf => JNum.negInf
  | JNum.posInf, _ => JNum.posInf
  | _, JNum.posInf => JNum.posInf

/-- Multiplication of a JavaScript number by a rational weight
(`prob * evalScore`). The source only uses weights `≥ 0.01`, for which
this matches JavaScript multiplication. -/
def jscale (q : ℚ) : JNum → JNum
  | JNum.fin r => JNum.fin (q * r)
  | JNum.negInf => JNum.negInf
  | JNum.posInf => JNum.posInf

/-! ## Minimax with alpha-beta -/

/-- The deterministic one-step opponent advance of the minimax ghost ply
(the `ghostPositions.map` callback inside `minimax`): prefer the axis
with the strictly larger absolute distance component; a blocked (or not
preferred) x-step falls through to the y-step; a blocked y-step leaves
the ghost in place. -/
def minimaxGhostStep (map : GameMap) (pacmanPos : Pt) (st : ThreatState)
    (gPos : Pt) : Pt :=
  let gGrid := toGrid gPos
  let pGrid := toGrid pacmanPos
  let dx := pGrid.x - gGrid.x
  let dy := pGrid.y - gGrid.y
  let multiplier : ℤ := if st.isEdible then -1 else 1
  let moveX : ℤ := if dx ≠ 0 then (if dx > 0 then 10 * multiplier else -10 * multiplier) else 0
  let moveY : ℤ := if dy ≠ 0 then (if dy > 0 then 10 * multiplier else -10 * multiplier) else 0
  if |dx| > |dy| ∧ map.isFloorSpace (toGrid ⟨gPos.x + moveX, gPos.y⟩) then
    ⟨gPos.x + moveX, gPos.y⟩
  else if map.isFloorSpace (toGrid ⟨gPos.x, gPos.y + moveY⟩) then
    ⟨gPos.x, gPos.y + moveY⟩
  else gPos

/-- The maximizing ply's loop over the agent's moves, with the running
best value, alpha update and the `beta <= alpha` break, exactly as in the
source (`maxEval` and `alpha` are both updated before the break test). -/
def maxLoop (f : Dir → JNum → JNum → JNum) :
    List Dir → JNum → JNum → JNum → JNum
  | [], maxEval, _, _ => maxEval
  | move :: rest, maxEval, alpha, beta =>
    let evalScore := f move alpha beta
    let maxEval' := jmax maxEval evalScore
    let alpha' := jmax alpha evalScore
    if jle beta alpha' then maxEval'
    else maxLoop f rest maxEval' alpha' beta

/-- Source `minimax` (the recursive search, without the observational
node counter): agent ply maximizes with alpha-beta, the opponent ply
advances every ghost deterministically and recurses once through
`Math.min(Infinity, ·)`. -/
def minimax (map : GameMap) : ℕ → Pt → List Pt → List ThreatState →
    Bool → JNum → JNum → JNum
  | 0, pacmanPos, ghostPositions, ghostStates, _, _, _ =>
    JNum.fin (evaluateState map pacmanPos ghostPositions ghostStates)
  | depth + 1, pacmanPos, ghostPositions, ghostStates, isMaximizing, alpha, beta =>
    let validMoves := getValidMoves map pacmanPos
    if validMoves = [] then
      JNum.fin (evaluateState map pacmanPos ghostPositions ghostStates)
    else if isMaximizing then
      maxLoop (fun move a b =>
          minimax map depth (padd pacmanPos (delta10 move)) ghostPositions
            ghostStates false a b)
        validMoves JNum.negInf alpha beta
    else
      let newGhostPositions :=
        (ghostPositions.zip ghostStates).map (fun gp =>
          minimaxGhostStep map pacmanPos gp.2 gp.1)
      jmin JNum.posInf
        (minimax map depth pacmanPos newGhostPositions ghostStates true alpha beta)

/-- The maximizing ply's loop without pruning (used by the spec-side
reference search below). -/
def maxLoopNP (f : Dir → JNum) : List Dir → JNum → JNum
  | [], maxEval => maxEval
  | move :: rest, maxEval => maxLoopNP f rest (jmax maxEval (f move))

/-- Modelled from the spec (testable property 5): minimax without
alpha-beta pruning — the same recursion with the alpha/beta window and
the break removed. -/
def minimaxNoPrune (map : GameMap) : ℕ → Pt → List Pt → List ThreatState →
    Bool → JNum
  | 0, pacmanPos, ghostPositions, ghostStates, _ =>
    JNum.fin (evaluateState map pacmanPos ghostPositions ghostStates)
  | depth + 1, pacmanPos, ghostPositions, ghostStates, isMaximizing =>
    let validMoves := getValidMoves map pacmanPos
    if validMoves = [] then
      JNum.fin (evaluateState map pacmanPos ghostPositions ghostStates)
    else if isMaximizing then
      maxLoopNP (fun move =>
          minimaxNoPrune map depth (padd pacmanPos (delta10 move)) ghostPositions
            ghostStates false)
        validMoves JNum.negInf
    else
      let newGhostPositions :=
        (ghostPositions.zip ghostStates).map (fun gp =>
          minimaxGhostStep map pacmanPos gp.2 gp.1)
      jmin JNum.posInf
        (minimaxNoPrune map depth pacmanPos newGhostPositions ghostStates true)

/-- Source `PacmanControllers.minimax` (named `minimaxController` here
because inside a declaration of that name the bare recursive search
`minimax` would be shadowed): root move selection. Each root
child is searched with the full window `(-Infinity, Infinity)`, the
anti-oscillation penalty is subtracted from each candidate's value, and a
candidate replaces the incumbent only on a strictly greater score
(`validMoves[0]` wins ties). A depth argument of 0 models the JavaScript
`depth = depth || 4` default. -/
def minimaxController (map : GameMap) (pacmanPos : Pt)
    (ghostPositions : List Pt) (ghostStates : List ThreatState)
    (depth : ℕ) (osc : OscState) (lastMove : Dir) : Dir :=
  let depth := if depth = 0 then 4 else depth
  match getValidMoves map pacmanPos with
  | [] => Dir.none
  | m0 :: rest =>
    ((m0 :: rest).foldl (fun best move =>
      let newPos := padd pacmanPos (delta10 move)
      let score :=
        jsub (minimax map (depth - 1) newPos ghostPositions ghostStates false
                JNum.negInf JNum.posInf)
             (getOscillationPenalty osc pacmanPos move lastMove)
      if jlt best.2 score then (move, score) else best)
      (m0, JNum.negInf)).1

/-- The root controller over the spec-side no-pruning search, for the
pruning-refinement comparison. -/
def minimaxControllerNoPrune (map : GameMap) (pacmanPos : Pt)
    (ghostPositions : List Pt) (ghostStates : List ThreatState)
    (depth : ℕ) (osc : OscState) (lastMove : Dir) : Dir :=
  let depth := if depth = 0 then 4 else depth
  match getValidMoves map pacmanPos with
  | [] => Dir.none
  | m0 :: rest =>
    ((m0 :: rest).foldl (fun best move =>
      let newPos := padd pacmanPos (delta10 move)
      let score :=
        jsub (minimaxNoPrune map (depth - 1) newPos ghostPositions ghostStates false)
             (getOscillationPenalty osc pacmanPos move lastMove)
      if jlt best.2 score then (move, score) else best)
      (m0, JNum.negInf)).1

/-! ## Expectimax with the learned opponent model -/

/-- The most-likely-direction loop for a non-focus ghost (`bestProb = 0`,
`bestDir = UP`, strict improvement in the enumeration order UP, DOWN,
LEFT, RIGHT). -/
def mostLikelyDir (probs : DirProbs) : Dir :=
  ([Dir.up, Dir.down, Dir.left, Dir.right].foldl (fun acc d =>
    if probs.get d > acc.1 then (probs.get d, d) else acc)
    ((0 : ℚ), Dir.up)).2

/-- The ghost-advance callback of the expectimax ghost ply
(`ghostPositions.map` inside `expectimax`): ghost 0 takes the sampled
direction, every other ghost takes its own most probable direction, and
any ghost whose target cell is not floor stays in place. `none` models
the throw of a probability query for an absent ghost index. -/
def expMoveGhosts (map : GameMap) (gm : GhostModel) (pacmanPos : Pt)
    (ghostPositions : List Pt) (dir : Dir) : Option (List Pt) :=
  ghostPositions.enum.mapM (fun iz =>
    let idx := iz.1
    let gPos := iz.2
    let gDelta0 :=
      if idx > 0 then
        match probsOnly gm idx gPos pacmanPos with
        | Option.none => Option.none
        | some otherProbs => some (delta10 (mostLikelyDir otherProbs))
      else some (delta10 dir)
    match gDelta0 with
    | Option.none => Option.none
    | some gDelta =>
      let testPos : Pt := ⟨gPos.x + gDelta.x, gPos.y + gDelta.y⟩
      if map.isFloorSpace (toGrid testPos) then some testPos else some gPos)

/-- The ghost ply's expectation loop: skip directions with probability
below `0.01`, otherwise advance the ghosts, recurse, and accumulate
`prob * evalScore` (`f` advances the ghosts for a direction, `rec` is the
recursive search on the advanced positions). -/
def expSum (f : Dir → Option (List Pt)) (rec : List Pt → Option JNum)
    (probs : DirProbs) : List Dir → JNum → Option JNum
  | [], expectedValue => some expectedValue
  | dir :: rest, expectedValue =>
    if probs.get dir < 1/100 then expSum f rec probs rest expectedValue
    else
      match f dir with
      | Option.none => Option.none
      | some newGhostPositions =>
        match rec newGhostPositions with
        | Option.none => Option.none
        | some evalScore =>
          expSum f rec probs rest
            (jadd expectedValue (jscale (probs.get dir) evalScore))

/-- The maximizing ply's loop of expectimax (no pruning; failures of the
recursive call propagate). -/
def expMaxLoop (rec : Pt → Option JNum) :
    List Dir → Pt → JNum → Option JNum
  | [], _, maxEval => some maxEval
  | move :: rest, pacmanPos, maxEval =>
    match rec (padd pacmanPos (delta10 move)) with
    | Option.none => Option.none
    | some evalScore => expMaxLoop rec rest pacmanPos (jmax maxEval evalScore)

/-- Source `expectimax` (without the observational node counter): agent
ply maximizes, ghost ply returns the probability-weighted expectation
over ghost 0's learned move distribution. `none` models a thrown
probability lookup (absent ghost index, or `ghostPositions[0]` on an
empty list). -/
def expectimax (map : GameMap) (gm : GhostModel) : ℕ → Pt → List Pt →
    List ThreatState → Bool → Option JNum
  | 0, pacmanPos, ghostPositions, ghostStates, _ =>
    some (JNum.fin (evaluateState map pacmanPos ghostPositions ghostStates))
  | depth + 1, pacmanPos, ghostPositions, ghostStates, isMaximizing =>
    let validMoves := getValidMoves map pacmanPos
    if validMoves = [] then
      some (JNum.fin (evaluateState map pacmanPos ghostPositions ghostStates))
    else if isMaximizing then
      expMaxLoop (fun newPos =>
          expectimax map gm depth newPos ghostPositions ghostStates false)
        validMoves pacmanPos JNum.negInf
    else
      match ghostPositions with
      | [] => Option.none
      | g0 :: _ =>
        match probsOnly gm 0 g0 pacmanPos with
        | Option.none => Option.none
        | some probs =>
          expSum (fun dir => expMoveGhosts map gm pacmanPos ghostPositions dir)
            (fun newGhostPositions =>
              expectimax map gm depth pacmanPos newGhostPositions ghostStates true)
            probs [Dir.up, Dir.down, Dir.left, Dir.right] (JNum.fin 0)

/-! ## A* pathfinding -/

/-- Result record of `astar`. -/
structure AStarResult where
  direction : Dir
  nodesEvaluated : ℕ
deriving DecidableEq, Repr

/-- The search's dictionary state: open set, back-pointers and scores.
The score maps are association lists with the newest binding first
(prepending a binding models a JavaScript property assignment, since
lookups take the first hit). -/
structure AStarState where
  openSet : List Pt
  cameFrom : List (Pt × Pt)
  gScore : List (Pt × WithTop ℤ)
  fScore : List (Pt × WithTop ℤ)

/-- First-hit association-list lookup (JavaScript property read; `none`
is `undefined`). -/
def alookup {α : Type} (l : List (Pt × α)) (k : Pt) : Option α :=
  (l.find? (fun e => decide (e.1 = k))).map Prod.snd

/-- JavaScript `score[key] || Infinity`: a missing key yields `Infinity`,
and so does a stored `0`, because `0` is falsy in JavaScript. -/
def jsOrInf (o : Option (WithTop ℤ)) : WithTop ℤ :=
  match o with
  | some v => if v = 0 then ⊤ else v
  | Option.none => ⊤

/-- Direction reconstruction from the first edge of a discovered path
(the body of `astar`'s goal branch): the tunnel edge between the two
boundary columns of the tunnel row maps to LEFT/RIGHT explicitly, other
edges use the coordinate delta (x precedence). -/
def firstEdgeDirection (startGrid next : Pt) : Dir :=
  let dx := next.x - startGrid.x
  let dy := next.y - startGrid.y
  if startGrid.y = TUNNEL_ROW ∧ next.y = TUNNEL_ROW then
    if startGrid.x = 0 ∧ next.x = MAP_WIDTH - 1 then Dir.left
    else if startGrid.x = MAP_WIDTH - 1 ∧ next.x = 0 then Dir.right
    else if dx > 0 then Dir.right
    else if dx < 0 then Dir.left
    else Dir.none
  else
    if dx > 0 then Dir.right
    else if dx < 0 then Dir.left
    else if dy > 0 then Dir.down
    else if dy < 0 then Dir.up
    else Dir.none

/-- The path-reconstruction loop (`while (cameFrom[key(current)])` with
`unshift`). The fuel bounds the number of back-pointer steps; the caller
passes `cameFrom.length + 1`, which a cycle-free chain cannot exhaust. -/
def pathLoop (cameFrom : List (Pt × Pt)) : ℕ → Pt → List Pt → List Pt
  | 0, _, path => path
  | fuel + 1, current, path =>
    match alookup cameFrom current with
    | some prev => pathLoop cameFrom fuel prev (prev :: path)
    | Option.none => path

/-- Neighbor relaxation (the body of `astar`'s `for` loop over
`neighbors`): skip non-floor cells, compute the tentative g-score with
the `|| Infinity` lookups, and on strict improvement write the
back-pointer and scores and append the neighbor to the open set if
absent. -/
def processNeighbor (map : GameMap) (goalGrid current : Pt)
    (st : AStarState) (neighbor : Pt) : AStarState :=
  let isTunnelWrap :=
    current.y = TUNNEL_ROW ∧
      ((current.x = 0 ∧ neighbor.x = MAP_WIDTH - 1) ∨
       (current.x = MAP_WIDTH - 1 ∧ neighbor.x = 0))
  if ¬isTunnelWrap ∧ map.isFloorSpace neighbor = false then st
  else if isTunnelWrap ∧ map.isFloorSpace neighbor = false then st
  else
    let tentativeG := jsOrInf (alookup st.gScore current) + 1
    if tentativeG < jsOrInf (alookup st.gScore neighbor) then
      { openSet :=
          if st.openSet.any (fun n => decide (n = neighbor)) then st.openSet
          else st.openSet ++ [neighbor]
        cameFrom := (neighbor, current) :: st.cameFrom
        gScore := (neighbor, tentativeG) :: st.gScore
        fScore := (neighbor,
          tentativeG + ((tunnelAwareDistance neighbor goalGrid : ℤ) : WithTop ℤ)) ::
          st.fScore }
    else st

/-- The main `while (openSet.length > 0)` loop of `astar`. The structural
fuel only bounds the iteration count; the source's own `nodesEvaluated >
500` cap bounds the loop at 501 iterations, so the caller's fuel of 502
can never be exhausted before the source's loop exits. -/
def astarLoop (map : GameMap) (startGrid goalGrid : Pt) :
    ℕ → AStarState → ℕ → AStarResult
  | 0, _, n => ⟨Dir.none, n⟩
  | fuel + 1, st, n =>
    match st.openSet with
    | [] => ⟨Dir.none, n⟩
    | c0 :: cs =>
      let n' := n + 1
      let current := cs.foldl (fun a b =>
        if jsOrInf (alookup st.fScore a) < jsOrInf (alookup st.fScore b) then a
        else b) c0
      if current = goalGrid then
        let path := pathLoop st.cameFrom (st.cameFrom.length + 1) current [current]
        match path with
        | _ :: next :: _ => ⟨firstEdgeDirection startGrid next, n'⟩
        | _ => ⟨Dir.none, n'⟩
      else
        let st1 : AStarState :=
          { st with openSet := st.openSet.filter (fun nb => !decide (nb = current)) }
        let neighbors :=
          [(⟨current.x + 1, current.y⟩ : Pt), ⟨current.x - 1, current.y⟩,
           ⟨current.x, current.y + 1⟩, ⟨current.x, current.y - 1⟩] ++
          (if current.y = TUNNEL_ROW then
            (if current.x = 0 then [(⟨MAP_WIDTH - 1, TUNNEL_ROW⟩ : Pt)]
             else if current.x = MAP_WIDTH - 1 then [(⟨0, TUNNEL_ROW⟩ : Pt)]
             else [])
           else [])
        let st2 := neighbors.foldl (processNeighbor map goalGrid current) st1
        if n' > 500 then ⟨Dir.none, n'⟩
        else astarLoop map startGrid goalGrid fuel st2 n'

/-- Source `astar`: tunnel-aware A* from a start pixel position to a goal
pixel position, returning the first move of the discovered path and the
number of expanded nodes. -/
def astar (map : GameMap) (start goal : Pt) : AStarResult :=
  let startGrid := toGrid start
  let goalGrid := toGrid goal
  astarLoop map startGrid goalGrid 502
    { openSet := [startGrid]
      cameFrom := []
      gScore := [(startGrid, (0 : WithTop ℤ))]
      fScore := [(startGrid, ((tunnelAwareDistance startGrid goalGrid : ℤ) : WithTop ℤ))] }
    0

/-! ## Concrete fixtures used by the theorems below -/

/-- An everywhere-floor map with an empty cell array (no pellets). -/
def openEmptyMap : GameMap := ⟨fun _ => true, []⟩

/-- A map whose floor is exactly the tunnel row (row 10, columns 0..18);
its cell array is empty. -/
def tunnelRowMap : GameMap :=
  ⟨fun c => decide (c.y = 10 ∧ 0 ≤ c.x ∧ c.x ≤ 18), []⟩

/-- An everywhere-floor map except for a single wall at grid cell (6, 5). -/
def wallMap : GameMap := ⟨fun c => !decide (c.x = 6 ∧ c.y = 5), []⟩

/-- An oscillation state with no recorded visits and the given history. -/
def oscWithHistory (hist : List Pt) : OscState := ⟨hist, fun _ => 0⟩

/-! ## Theorems -/

/-- C1: the anti-oscillation history penalty weights OLDER matching
entries more heavily, not more recent ones. With a two-entry history, a
matching entry in the most recent slot contributes `50 * (1 + 1/2) = 75`
while the same entry in the oldest slot contributes `50 * (1 + 2/2) =
100`: the code's factor `(length - i) / length` is 1 for the oldest entry
and `1/length` for the most recent, the opposite of the claimed
0-(oldest)-to-1-(newest) ramp, and the recent-slot total is strictly
SMALLER. (Moving UP from pixel (50, 50) targets grid cell (5, 4); the
other entry (0, 0) does not match; the last move is NONE and no visit
counts are recorded, so only the history term contributes.) -/
theorem oscillation_recency_inverted :
    getOscillationPenalty (oscWithHistory [⟨0, 0⟩, ⟨5, 4⟩]) ⟨50, 50⟩ Dir.up Dir.none = 75 ∧
    getOscillationPenalty (oscWithHistory [⟨5, 4⟩, ⟨0, 0⟩]) ⟨50, 50⟩ Dir.up Dir.none = 100 ∧
    getOscillationPenalty (oscWithHistory [⟨0, 0⟩, ⟨5, 4⟩]) ⟨50, 50⟩ Dir.up Dir.none <
      getOscillationPenalty (oscWithHistory [⟨5, 4⟩, ⟨0, 0⟩]) ⟨50, 50⟩ Dir.up Dir.none := by
  refine ⟨?_, ?_, ?_⟩ <;>
    norm_num [getOscillationPenalty, oscWithHistory, toGrid, padd, delta1, round10, opposite,
      List.enum, List.enumFrom, Int.fdiv]

/-- C2 (counterexample): in the minimax opponent ply's deterministic
advance, an opponent whose preferred x-axis step (toward the agent,
`|dx| = 4 > 1 = |dy|`) is blocked does NOT stay in place: it falls back
to the y-axis step. Ghost at pixel (50, 50) (grid (5, 5)), agent at pixel
(90, 60) (grid (9, 6)), wall at (6, 5): the ghost moves to pixel
(50, 60). -/
theorem minimax_ghost_fallback_counterexample :
    |((toGrid (⟨90, 60⟩ : Pt)).x - (toGrid (⟨50, 50⟩ : Pt)).x)| >
      |((toGrid (⟨90, 60⟩ : Pt)).y - (toGrid (⟨50, 50⟩ : Pt)).y)| ∧
    wallMap.isFloorSpace (toGrid ⟨50 + 10, 50⟩) = false ∧
    minimaxGhostStep wallMap ⟨90, 60⟩ ⟨false, false⟩ ⟨50, 50⟩ = ⟨50, 60⟩ ∧
    (⟨50, 60⟩ : Pt) ≠ ⟨50, 50⟩ := by
  refine ⟨by decide, by decide, by decide, by decide⟩

/-- C10: the probability query is read-pure — whenever it returns, the
learning state it hands back is exactly the input state (no bucket is
created for a never-observed situation, and the total-observation counter
is unchanged). -/
theorem moveProbabilities_read_pure (m : GhostModel) (ghostIdx : ℕ)
    (ghostPos pacmanPos : Pt) (r : DirProbs × GhostModel)
    (h : getGhostMoveProbabilities m ghostIdx ghostPos pacmanPos = some r) :
    r.2 = m := by
  unfold getGhostMoveProbabilities at h
  rcases hobs : m.obs ghostIdx with _ | tbl
  · rw [hobs] at h; exact absurd h (by simp)
  · rw [hobs] at h
    rcases htbl : tbl (getSituation ghostPos pacmanPos) with _ | b <;>
      simp only [htbl, Option.some.injEq] at h <;> rw [← h]

/-- Witness for C10 at a concrete never-observed situation of the
initial model. -/
theorem moveProbabilities_read_pure_witness :
    ((⟨1/4, 1/4, 1/4, 1/4⟩ : DirProbs), initGhostModel).2 = initGhostModel :=
  moveProbabilities_read_pure initGhostModel 0 ⟨3, 7⟩ ⟨20, 20⟩ _ rfl

/-- Helper for C6: the two isEdible-based partitions of the evaluator
depend only on the opponents' `isEdible` flags. -/
theorem zip_filter_dangerous_congr :
    ∀ (gs : List Pt) (sts sts' : List ThreatState),
      sts.map ThreatState.isEdible = sts'.map ThreatState.isEdible →
      ((gs.zip sts).filter (fun x => !x.2.isEdible)).map Prod.fst =
        ((gs.zip sts').filter (fun x => !x.2.isEdible)).map Prod.fst ∧
      ((gs.zip sts).filter (fun x => x.2.isEdible)).map Prod.fst =
        ((gs.zip sts').filter (fun x => x.2.isEdible)).map Prod.fst := by
  intro gs
  induction gs with
  | nil => intro sts sts' h; simp
  | cons g gs ih =>
    intro sts sts' h
    cases sts with
    | nil =>
      cases sts' with
      | nil => exact ⟨rfl, rfl⟩
      | cons s' ss' => simp at h
    | cons s ss =>
      cases sts' with
      | nil => simp at h
      | cons s' ss' =>
        simp only [List.map_cons, List.cons.injEq] at h
        obtain ⟨h1, h2⟩ := h
        obtain ⟨ihd, ihe⟩ := ih ss ss' h2
        constructor <;>
          · simp only [List.zip_cons_cons, List.filter_cons, h1]
            by_cases hq : s'.isEdible <;> simp [hq, ihd, ihe]

/-- C6 (amended): the static evaluator partitions opponents solely on
`isEdible` — `isDangerous` is never read, so an opponent with both flags
false lands in the dangerous set; in particular a lone such opponent
within Manhattan distance 2 on a pellet-free open map yields the full
dangerous-opponent score of −2000 rather than contributing nothing. -/
theorem evaluateState_neither_is_dangerous :
    (∀ (map : GameMap) (p : Pt) (gs : List Pt) (sts sts' : List ThreatState),
        sts.map ThreatState.isEdible = sts'.map ThreatState.isEdible →
        evaluateState map p gs sts = evaluateState map p gs sts') ∧
    (∀ (p g : Pt), manhattanDistance (toGrid p) (toGrid g) < 2 →
        evaluateState openEmptyMap p [g] [⟨false, false⟩] = -2000) := by
  constructor
  · intro map p gs sts sts' h
    obtain ⟨hd, he⟩ := zip_filter_dangerous_congr gs sts sts' h
    simp only [evaluateState]
    rw [hd, he]
  · intro p g h
    have h8 : ¬ ((8:ℤ) : WithTop ℤ) < ((manhattanDistance (toGrid p) (toGrid g) : ℤ) : WithTop ℤ) := by
      rw [WithTop.coe_lt_coe]; omega
    simp only [evaluateState, openEmptyMap, nearestGhostDist]
    have hb : ((Option.none : Option ℕ) = some Pacman.BISCUIT) = False := by simp
    have hp : ((Option.none : Option ℕ) = some Pacman.PILL) = False := by simp
    norm_num [cellAt, findNearestPellet, h, h8, hb, hp, min_eq_left le_top]

/-- C6 (counterexample to the claim as stated): an opponent with
`isEdible = false` and `isDangerous = false` at Manhattan distance 1
(pixel (10, 0), grid (1, 0)) makes the evaluator return −2000 on a
pellet-free open map — the claim's "no dangerous-opponent penalty term"
would leave the score at 0. -/
theorem evaluateState_neither_counterexample :
    evaluateState openEmptyMap ⟨0, 0⟩ [⟨10, 0⟩] [⟨false, false⟩] = -2000 ∧
    (-2000 : ℚ) ≠ 0 := by
  constructor
  · have h8 : ¬ ((8:ℤ) : WithTop ℤ) <
        ((manhattanDistance (toGrid (⟨0, 0⟩ : Pt)) (toGrid (⟨10, 0⟩ : Pt)) : ℤ) : WithTop ℤ) := by
      rw [WithTop.coe_lt_coe]; decide
    simp only [evaluateState, openEmptyMap, nearestGhostDist]
    have hb : ((Option.none : Option ℕ) = some Pacman.BISCUIT) = False := by simp
    have hp : ((Option.none : Option ℕ) = some Pacman.PILL) = False := by simp
    have h : manhattanDistance (toGrid (⟨0, 0⟩ : Pt)) (toGrid (⟨10, 0⟩ : Pt)) < 2 := by decide
    norm_num [cellAt, findNearestPellet, h, h8, hb, hp, min_eq_left le_top]
  · norm_num

/-- Witness for C6 at concrete inputs: a neither-flagged opponent one
cell below the agent scores −2000, and flipping every opponent's
`isDangerous` flag leaves the evaluation unchanged. -/
theorem evaluateState_neither_witness :
    evaluateState openEmptyMap ⟨0, 0⟩ [⟨0, 10⟩] [⟨false, false⟩] = -2000 ∧
    evaluateState openEmptyMap ⟨30, 40⟩ [⟨0, 0⟩, ⟨90, 90⟩] [⟨true, false⟩, ⟨false, true⟩] =
      evaluateState openEmptyMap ⟨30, 40⟩ [⟨0, 0⟩, ⟨90, 90⟩] [⟨true, true⟩, ⟨false, false⟩] :=
  ⟨evaluateState_neither_is_dangerous.2 ⟨0, 0⟩ ⟨0, 10⟩ (by decide),
   evaluateState_neither_is_dangerous.1 openEmptyMap ⟨30, 40⟩ [⟨0, 0⟩, ⟨90, 90⟩] _ _ (by decide)⟩

/-- C2 (amended): the minimax opponent ply advances every opponent
deterministically and recurses exactly once (first conjunct), but the
blocked-step rule is asymmetric: when `|dx| > |dy|` and the preferred
x-axis step is blocked, the opponent FALLS BACK to the y-axis step
(second conjunct); it stays in place only when the y-axis step is also
blocked, or when the x-axis was not preferred and the y-axis step is
blocked (third conjunct). There is no x-axis fallback when the y-axis is
preferred. -/
theorem minimax_ghost_ply_spec :
    (∀ (map : GameMap) (d : ℕ) (p : Pt) (gs : List Pt) (sts : List ThreatState)
        (alpha beta : JNum), getValidMoves map p ≠ [] →
        minimax map (d + 1) p gs sts false alpha beta =
          jmin JNum.posInf
            (minimax map d p
              ((gs.zip sts).map (fun gp => minimaxGhostStep map p gp.2 gp.1))
              sts true alpha beta)) ∧
    (∀ (map : GameMap) (p : Pt) (st : ThreatState) (g : Pt) (dx dy mult moveX moveY : ℤ),
        dx = (toGrid p).x - (toGrid g).x → dy = (toGrid p).y - (toGrid g).y →
        mult = (if st.isEdible then (-1 : ℤ) else 1) →
        moveX = (if dx ≠ 0 then (if dx > 0 then 10 * mult else -10 * mult) else 0) →
        moveY = (if dy ≠ 0 then (if dy > 0 then 10 * mult else -10 * mult) else 0) →
        |dx| > |dy| →
        map.isFloorSpace (toGrid ⟨g.x + moveX, g.y⟩) = false →
        map.isFloorSpace (toGrid ⟨g.x, g.y + moveY⟩) = true →
        minimaxGhostStep map p st g = ⟨g.x, g.y + moveY⟩) ∧
    (∀ (map : GameMap) (p : Pt) (st : ThreatState) (g : Pt) (dx dy mult moveX moveY : ℤ),
        dx = (toGrid p).x - (toGrid g).x → dy = (toGrid p).y - (toGrid g).y →
        mult = (if st.isEdible then (-1 : ℤ) else 1) →
        moveX = (if dx ≠ 0 then (if dx > 0 then 10 * mult else -10 * mult) else 0) →
        moveY = (if dy ≠ 0 then (if dy > 0 then 10 * mult else -10 * mult) else 0) →
        (¬ |dx| > |dy| ∨ map.isFloorSpace (toGrid ⟨g.x + moveX, g.y⟩) = false) →
        map.isFloorSpace (toGrid ⟨g.x, g.y + moveY⟩) = false →
        minimaxGhostStep map p st g = g) := by
  refine ⟨?_, ?_, ?_⟩
  · intro map d p gs sts alpha beta h
    simp only [minimax]
    rw [if_neg h]
    rfl
  · intro map p st g dx dy mult moveX moveY hdx hdy hmult hmx hmy h6 h7 h8
    simp only [minimaxGhostStep]
    rw [← hdx, ← hdy, ← hmult, ← hmx, ← hmy]
    split
    · next hcond => exact absurd hcond.2 (by rw [h7]; simp)
    · simp [h8]
  · intro map p st g dx dy mult moveX moveY hdx hdy hmult hmx hmy h6 h7
    simp only [minimaxGhostStep]
    rw [← hdx, ← hdy, ← hmult, ← hmx, ← hmy]
    split
    · next hcond =>
      cases h6 with
      | inl h => exact absurd hcond.1 h
      | inr h => exact absurd hcond.2 (by rw [h]; simp)
    · simp [h7]

/-- Witness for C2: the ply equation at a concrete one-ghost state, and
the y-axis fallback at the concrete blocked-x configuration of the
counterexample. -/
theorem minimax_ghost_ply_spec_witness :
    minimax openEmptyMap 1 ⟨0, 0⟩ [⟨40, 0⟩] [⟨false, false⟩] false JNum.negInf JNum.posInf =
      jmin JNum.posInf
        (minimax openEmptyMap 0 ⟨0, 0⟩
          (([(⟨40, 0⟩ : Pt)].zip [(⟨false, false⟩ : ThreatState)]).map
            (fun gp => minimaxGhostStep openEmptyMap ⟨0, 0⟩ gp.2 gp.1))
          [⟨false, false⟩] true JNum.negInf JNum.posInf) ∧
    minimaxGhostStep wallMap ⟨90, 60⟩ ⟨false, false⟩ ⟨50, 50⟩ = ⟨50, 50 + 10⟩ :=
  ⟨minimax_ghost_ply_spec.1 openEmptyMap 0 ⟨0, 0⟩ [⟨40, 0⟩] [⟨false, false⟩]
      JNum.negInf JNum.posInf (by decide),
   minimax_ghost_ply_spec.2.1 wallMap ⟨90, 60⟩ ⟨false, false⟩ ⟨50, 50⟩ 4 1 1 10 10
      (by decide) (by decide) (by decide) (by decide) (by decide) (by decide)
      (by decide) (by decide)⟩

/-- Helper: evaluation of the probability query on a never-observed
situation bucket (uniform distribution). -/
theorem getGhost_unseen {m : GhostModel} {i : ℕ} {g p : Pt} {tbl : SitKey → Option DirCounts}
    (hobs : m.obs i = some tbl) (htbl : tbl (getSituation g p) = Option.none) :
    getGhostMoveProbabilities m i g p = some (⟨1/4, 1/4, 1/4, 1/4⟩, m) := by
  unfold getGhostMoveProbabilities
  rw [hobs]
  simp only [htbl]

/-- Helper: evaluation of the probability query on an observed situation
bucket (Laplace-smoothed frequencies). -/
theorem getGhost_seen {m : GhostModel} {i : ℕ} {g p : Pt} {tbl : SitKey → Option DirCounts}
    {b : DirCounts} (hobs : m.obs i = some tbl)
    (htbl : tbl (getSituation g p) = some b) :
    getGhostMoveProbabilities m i g p = some
      (⟨((b.up + SMOOTHING : ℕ) : ℚ) /
          ((SMOOTHING * 4 + (b.up + b.down + b.left + b.right) : ℕ) : ℚ),
        ((b.down + SMOOTHING : ℕ) : ℚ) /
          ((SMOOTHING * 4 + (b.up + b.down + b.left + b.right) : ℕ) : ℚ),
        ((b.left + SMOOTHING : ℕ) : ℚ) /
          ((SMOOTHING * 4 + (b.up + b.down + b.left + b.right) : ℕ) : ℚ),
        ((b.right + SMOOTHING : ℕ) : ℚ) /
          ((SMOOTHING * 4 + (b.up + b.down + b.left + b.right) : ℕ) : ℚ)⟩, m) := by
  unfold getGhostMoveProbabilities
  rw [hobs]
  simp only [htbl]

/-- Helper: evaluation of `recordGhostMove` when the situation bucket did
not exist yet (fresh all-zero bucket, then increment). -/
theorem recordGhostMove_unseen {m : GhostModel} {i : ℕ} {g p : Pt} {d : Dir}
    {tbl : SitKey → Option DirCounts} (hobs : m.obs i = some tbl) (hd : d ≠ Dir.none)
    (htbl : tbl (getSituation g p) = Option.none) :
    recordGhostMove m i g p d = some
      ⟨fun j => if j = i then
          some (fun s => if s = getSituation g p then
            some (DirCounts.incr ⟨0, 0, 0, 0⟩ d)
          else tbl s)
        else m.obs j, m.total + 1⟩ := by
  unfold recordGhostMove
  rw [if_neg hd, hobs]
  simp only [htbl]

/-- Helper: evaluation of `recordGhostMove` on an existing situation
bucket. -/
theorem recordGhostMove_seen {m : GhostModel} {i : ℕ} {g p : Pt} {d : Dir}
    {tbl : SitKey → Option DirCounts} {b : DirCounts}
    (hobs : m.obs i = some tbl) (hd : d ≠ Dir.none)
    (htbl : tbl (getSituation g p) = some b) :
    recordGhostMove m i g p d = some
      ⟨fun j => if j = i then
          some (fun s => if s = getSituation g p then some (b.incr d) else tbl s)
        else m.obs j, m.total + 1⟩ := by
  unfold recordGhostMove
  rw [if_neg hd, hobs]
  simp only [htbl]

/-- C3: for every opponent index whose observation table is present —
initialization creates the tables of the four opponent indices 0..3, and
recording preserves every present table — the probability query succeeds
and returns exactly four probabilities that sum to exactly 1, each lying
strictly in (0, 1); a never-observed situation yields the uniform
distribution 0.25 per direction. -/
theorem moveProbabilities_sound :
    (∀ i, i < 4 → (initGhostModel.obs i).isSome) ∧
    (∀ (m : GhostModel) (i : ℕ) (g p : Pt) (d : Dir) (m' : GhostModel),
        recordGhostMove m i g p d = some m' →
        ∀ j, (m.obs j).isSome → (m'.obs j).isSome) ∧
    (∀ (m : GhostModel) (i : ℕ) (g p : Pt) (tbl : SitKey → Option DirCounts),
        m.obs i = some tbl →
        ∃ pr : DirProbs,
          getGhostMoveProbabilities m i g p = some (pr, m) ∧
          pr.up + pr.down + pr.left + pr.right = 1 ∧
          (0 < pr.up ∧ pr.up < 1) ∧ (0 < pr.down ∧ pr.down < 1) ∧
          (0 < pr.left ∧ pr.left < 1) ∧ (0 < pr.right ∧ pr.right < 1) ∧
          (tbl (getSituation g p) = Option.none → pr = ⟨1/4, 1/4, 1/4, 1/4⟩)) := by
  refine ⟨?_, ?_, ?_⟩
  · intro i hi
    simp [initGhostModel, hi]
  · intro m i g p d m' hrec j hj
    unfold recordGhostMove at hrec
    by_cases hd : d = Dir.none
    · rw [if_pos hd] at hrec
      injection hrec with h
      rw [← h]; exact hj
    · rw [if_neg hd] at hrec
      rcases hobs : m.obs i with _ | tbl
      · rw [hobs] at hrec; exact absurd hrec (by simp)
      · rw [hobs] at hrec
        simp only [Option.some.injEq] at hrec
        rw [← hrec]
        by_cases hji : j = i
        · simp [hji]
        · simpa [hji] using hj
  · intro m i g p tbl hobs
    rcases htbl : tbl (getSituation g p) with _ | b
    · exact ⟨⟨1/4, 1/4, 1/4, 1/4⟩, getGhost_unseen hobs htbl, by norm_num, by norm_num,
        by norm_num, by norm_num, by norm_num, fun _ => rfl⟩
    · have hTpos : (0 : ℚ) < ((SMOOTHING * 4 + (b.up + b.down + b.left + b.right) : ℕ) : ℚ) :=
        Nat.cast_pos.mpr (by unfold SMOOTHING; omega)
    
      refine ⟨_, getGhost_seen hobs htbl, ?_, ?_, ?_, ?_, ?_, ?_⟩
      · rw [div_add_div_same, div_add_div_same, div_add_div_same,
          div_eq_one_iff_eq hTpos.ne']
        push_cast
        unfold SMOOTHING
        ring
      · exact ⟨div_pos (Nat.cast_pos.mpr (by unfold SMOOTHING; omega)) hTpos,
          (div_lt_one hTpos).mpr (Nat.cast_lt.mpr (by unfold SMOOTHING; omega))⟩
      · exact ⟨div_pos (Nat.cast_pos.mpr (by unfold SMOOTHING; omega)) hTpos,
          (div_lt_one hTpos).mpr (Nat.cast_lt.mpr (by unfold SMOOTHING; omega))⟩
      · exact ⟨div_pos (Nat.cast_pos.mpr (by unfold SMOOTHING; omega)) hTpos,
          (div_lt_one hTpos).mpr (Nat.cast_lt.mpr (by unfold SMOOTHING; omega))⟩
      · exact ⟨div_pos (Nat.cast_pos.mpr (by unfold SMOOTHING; omega)) hTpos,
          (div_lt_one hTpos).mpr (Nat.cast_lt.mpr (by unfold SMOOTHING; omega))⟩
      · intro hcontra
        exact absurd hcontra (by simp)

/-- C8: recording a non-NONE direction strictly increases the queried
probability of that direction for the same opponent index and situation
(both when the situation bucket is fresh, 1/4 to 2/5, and in general,
(c+1)/(S+4) to (c+2)/(S+5) with c ≤ S). -/
theorem recordMove_monotonic (m : GhostModel) (i : ℕ) (g p : Pt) (d : Dir)
    (tbl : SitKey → Option DirCounts) (hobs : m.obs i = some tbl) (hd : d ≠ Dir.none) :
    ∃ (m' : GhostModel) (prB prA : DirProbs),
      recordGhostMove m i g p d = some m' ∧
      getGhostMoveProbabilities m i g p = some (prB, m) ∧
      getGhostMoveProbabilities m' i g p = some (prA, m') ∧
      prB.get d < prA.get d := by
  rcases htbl : tbl (getSituation g p) with _ | b
  · have hrec := recordGhostMove_unseen hobs hd htbl
    have hB := getGhost_unseen hobs htbl
    have hobs2 : (⟨fun j => if j = i then
          some (fun s => if s = getSituation g p then
            some (DirCounts.incr ⟨0, 0, 0, 0⟩ d) else tbl s)
        else m.obs j, m.total + 1⟩ : GhostModel).obs i =
        some (fun s => if s = getSituation g p then
          some (DirCounts.incr ⟨0, 0, 0, 0⟩ d) else tbl s) := by simp
    have htbl2 : (fun s => if s = getSituation g p then
        some (DirCounts.incr ⟨0, 0, 0, 0⟩ d) else tbl s) (getSituation g p) =
        some (DirCounts.incr ⟨0, 0, 0, 0⟩ d) := by simp
    have hA := getGhost_seen hobs2 htbl2
    refine ⟨_, _, _, hrec, hB, hA, ?_⟩
    have hd4 : d = Dir.up ∨ d = Dir.down ∨ d = Dir.left ∨ d = Dir.right := by
      rcases d with _ | _ | _ | _ | _ <;> simp_all
    rcases hd4 with rfl | rfl | rfl | rfl <;>
      simp only [DirCounts.incr, DirProbs.get, SMOOTHING] <;>
      norm_num
  · have hrec := recordGhostMove_seen hobs hd htbl
    have hB := getGhost_seen hobs htbl
    have hobs2 : (⟨fun j => if j = i then
          some (fun s => if s = getSituation g p then some (b.incr d) else tbl s)
        else m.obs j, m.total + 1⟩ : GhostModel).obs i =
        some (fun s => if s = getSituation g p then some (b.incr d) else tbl s) := by simp
    have htbl2 : (fun s => if s = getSituation g p then some (b.incr d) else tbl s)
        (getSituation g p) = some (b.incr d) := by simp
    have hA := getGhost_seen hobs2 htbl2
    refine ⟨_, _, _, hrec, hB, hA, ?_⟩
    have h1 : (0 : ℚ) < ((SMOOTHING * 4 + (b.up + b.down + b.left + b.right) : ℕ) : ℚ) :=
      Nat.cast_pos.mpr (by unfold SMOOTHING; omega)
    have hd4 : d = Dir.up ∨ d = Dir.down ∨ d = Dir.left ∨ d = Dir.right := by
      rcases d with _ | _ | _ | _ | _ <;> simp_all
    rcases hd4 with rfl | rfl | rfl | rfl <;>
      simp only [DirCounts.incr, DirProbs.get, SMOOTHING] <;>
      · rw [div_lt_div_iff₀ (by push_cast; linarith) (by push_cast; positivity)]
        push_cast
        nlinarith [Nat.cast_nonneg (α := ℚ) b.up, Nat.cast_nonneg (α := ℚ) b.down,
          Nat.cast_nonneg (α := ℚ) b.left, Nat.cast_nonneg (α := ℚ) b.right]

/-- Witness for C3: a present table of the initial model, and the query
at a concrete never-observed situation. -/
theorem moveProbabilities_sound_witness :
    (initGhostModel.obs 2).isSome ∧
    ∃ pr : DirProbs,
      getGhostMoveProbabilities initGhostModel 0 ⟨0, 0⟩ ⟨0, 0⟩ = some (pr, initGhostModel) ∧
      pr.up + pr.down + pr.left + pr.right = 1 ∧
      (0 < pr.up ∧ pr.up < 1) ∧ (0 < pr.down ∧ pr.down < 1) ∧
      (0 < pr.left ∧ pr.left < 1) ∧ (0 < pr.right ∧ pr.right < 1) ∧
      ((fun _ => (Option.none : Option DirCounts)) (getSituation ⟨0, 0⟩ ⟨0, 0⟩) = Option.none →
        pr = ⟨1/4, 1/4, 1/4, 1/4⟩) :=
  ⟨moveProbabilities_sound.1 2 (by norm_num),
   moveProbabilities_sound.2.2 initGhostModel 0 ⟨0, 0⟩ ⟨0, 0⟩ (fun _ => Option.none) rfl⟩

/-- Witness for C8 at the initial model: recording UP once for opponent 0
makes a subsequent query strictly larger at UP. -/
theorem recordMove_monotonic_witness :
    ∃ (m' : GhostModel) (prB prA : DirProbs),
      recordGhostMove initGhostModel 0 ⟨0, 0⟩ ⟨0, 0⟩ Dir.up = some m' ∧
      getGhostMoveProbabilities initGhostModel 0 ⟨0, 0⟩ ⟨0, 0⟩ = some (prB, initGhostModel) ∧
      getGhostMoveProbabilities m' 0 ⟨0, 0⟩ ⟨0, 0⟩ = some (prA, m') ∧
      prB.get Dir.up < prA.get Dir.up :=
  recordMove_monotonic initGhostModel 0 ⟨0, 0⟩ ⟨0, 0⟩ Dir.up (fun _ => Option.none) rfl
    (by decide)

/-- Helper for C7: when every retained branch's ghost advance and
recursive evaluation succeed with finite values, the expectation loop
computes the raw probability-weighted sum over exactly the directions
whose probability is not below 0.01, starting from the accumulator. -/
theorem expSum_fins {f : Dir → Option (List Pt)} {rec : List Pt → Option JNum}
    {pr : DirProbs} {gp : Dir → List Pt} {v : Dir → ℚ}
    (hf : ∀ dir, f dir = some (gp dir))
    (hr : ∀ dir, rec (gp dir) = some (JNum.fin (v dir))) :
    ∀ (L : List Dir) (acc : ℚ),
      expSum f rec pr L (JNum.fin acc) =
        some (JNum.fin (acc + ((L.filter (fun dir => !decide (pr.get dir < 1/100))).map
          (fun dir => pr.get dir * v dir)).sum)) := by
  intro L
  induction L with
  | nil => intro acc; simp [expSum]
  | cons dir rest ih =>
    intro acc
    by_cases hlt : pr.get dir < 1/100
    · rw [expSum, if_pos hlt, ih acc]
      have hfilt : List.filter (fun d2 => !decide (pr.get d2 < 1/100)) (dir :: rest) =
          List.filter (fun d2 => !decide (pr.get d2 < 1/100)) rest := by
        rw [List.filter_cons]; simp; linarith
      rw [hfilt]
    · rw [expSum, if_neg hlt]
      simp only [hf, hr, jscale, jadd]
      rw [ih (acc + pr.get dir * v dir)]
      have hfilt : List.filter (fun d2 => !decide (pr.get d2 < 1/100)) (dir :: rest) =
          dir :: List.filter (fun d2 => !decide (pr.get d2 < 1/100)) rest := by
        rw [List.filter_cons]; simp; linarith [not_lt.mp hlt]
      rw [hfilt, List.map_cons, List.sum_cons, ← add_assoc]

/-- C7: the expectimax non-agent ply returns exactly the
probability-weighted sum of the recursive values over those directions of
opponent 0 whose learned probability is at least 0.01 (a direction with
probability below 0.01 is skipped), with no renormalization of the
retained probabilities. -/
theorem expectimax_ghost_expectation (map : GameMap) (gm : GhostModel)
    (pacmanPos g0 : Pt) (rest : List Pt) (sts : List ThreatState) (d : ℕ)
    (pr : DirProbs) (gp : Dir → List Pt) (v : Dir → ℚ)
    (hvm : getValidMoves map pacmanPos ≠ [])
    (hpr : probsOnly gm 0 g0 pacmanPos = some pr)
    (hg : ∀ dir, expMoveGhosts map gm pacmanPos (g0 :: rest) dir = some (gp dir))
    (hrec : ∀ dir, expectimax map gm d pacmanPos (gp dir) sts true = some (JNum.fin (v dir))) :
    expectimax map gm (d + 1) pacmanPos (g0 :: rest) sts false =
      some (JNum.fin ((([Dir.up, Dir.down, Dir.left, Dir.right].filter
          (fun dir => !decide (pr.get dir < 1/100))).map
        (fun dir => pr.get dir * v dir)).sum)) := by
  rw [expectimax, if_neg hvm]
  simp only [Bool.false_eq_true, if_false, hpr]
  rw [expSum_fins hg hrec [Dir.up, Dir.down, Dir.left, Dir.right] 0, zero_add]

/-- Witness for C7: on an open pellet-free map with one dangerous ghost
on the agent's cell and the uniform initial model, all four directions
are retained and the ghost ply returns 4 * (1/4 * −2000) = −2000. -/
theorem expectimax_ghost_expectation_witness :
    expectimax openEmptyMap initGhostModel 1 ⟨0, 0⟩ [⟨0, 0⟩] [⟨false, false⟩] false =
      some (JNum.fin (-2000)) := by
  have h2000 : ∀ dir : Dir,
      evaluateState openEmptyMap ⟨0, 0⟩ [(⟨(delta10 dir).x, (delta10 dir).y⟩ : Pt)]
        [⟨false, false⟩] = -2000 := by
    intro dir
    have hb : ((Option.none : Option ℕ) = some Pacman.BISCUIT) = False := by simp
    have hp : ((Option.none : Option ℕ) = some Pacman.PILL) = False := by simp
    cases dir <;>
      · simp only [evaluateState, openEmptyMap, nearestGhostDist, delta10]
        norm_num [cellAt, findNearestPellet, manhattanDistance, hb, hp, min_eq_left le_top,
          show toGrid (⟨0, 0⟩ : Pt) = ⟨0, 0⟩ from by decide,
          show toGrid (⟨0, -10⟩ : Pt) = ⟨0, -1⟩ from by decide,
          show toGrid (⟨0, 10⟩ : Pt) = ⟨0, 1⟩ from by decide,
          show toGrid (⟨-10, 0⟩ : Pt) = ⟨-1, 0⟩ from by decide,
          show toGrid (⟨10, 0⟩ : Pt) = ⟨1, 0⟩ from by decide]
  have hrec : ∀ dir : Dir,
      expectimax openEmptyMap initGhostModel 0 ⟨0, 0⟩
        [(⟨(delta10 dir).x, (delta10 dir).y⟩ : Pt)] [⟨false, false⟩] true =
        some (JNum.fin (-2000)) := by
    intro dir
    rw [expectimax, h2000 dir]
  have hg : ∀ dir : Dir,
      expMoveGhosts openEmptyMap initGhostModel ⟨0, 0⟩ [⟨0, 0⟩] dir =
        some [(⟨(delta10 dir).x, (delta10 dir).y⟩ : Pt)] := by
    intro dir
    cases dir <;> rfl
  have h := expectimax_ghost_expectation openEmptyMap initGhostModel ⟨0, 0⟩ ⟨0, 0⟩ []
    [⟨false, false⟩] 0 ⟨1/4, 1/4, 1/4, 1/4⟩
    (fun dir => [(⟨(delta10 dir).x, (delta10 dir).y⟩ : Pt)]) (fun _ => -2000)
    (by decide) rfl hg hrec
  rw [h]
  norm_num [List.filter_cons, DirProbs.get, List.map_cons, List.sum_cons, List.sum_nil]

/-- Helper: the maximum of two non-Infinity values is not Infinity. -/
theorem jmax_ne_posInf {a b : JNum} (ha : a ≠ JNum.posInf) (hb : b ≠ JNum.posInf) :
    jmax a b ≠ JNum.posInf := by
  unfold jmax; split <;> assumption

/-- Helper: `Infinity <= a` is false unless `a` is Infinity. -/
theorem jle_posInf_eq_true {a : JNum} (ha : a ≠ JNum.posInf) :
    jle JNum.posInf a = false := by
  cases a <;> simp_all [jle]

/-- Helper: `Math.min(Infinity, a) = a` for non-Infinity `a`. -/
theorem jmin_posInf {a : JNum} (ha : a ≠ JNum.posInf) : jmin JNum.posInf a = a := by
  unfold jmin
  rw [jle_posInf_eq_true ha]
  simp

/-- Helper for C4: the maximizing loop never returns Infinity when its
accumulator and all child evaluations are finite or -Infinity. -/
theorem maxLoop_ne_posInf {f : Dir → JNum → JNum → JNum}
    (hf : ∀ m a b, f m a b ≠ JNum.posInf) :
    ∀ (moves : List Dir) (acc alpha beta : JNum), acc ≠ JNum.posInf →
      maxLoop f moves acc alpha beta ≠ JNum.posInf := by
  intro moves
  induction moves with
  | nil => intro acc alpha beta hacc; simpa [maxLoop] using hacc
  | cons m rest ih =>
    intro acc alpha beta hacc
    rw [maxLoop]
    split
    · exact jmax_ne_posInf hacc (hf m alpha beta)
    · exact ih _ _ _ (jmax_ne_posInf hacc (hf m alpha beta))

/-- Helper for C4: the search value is never Infinity (leaf evaluations
are finite rationals and both plies only propagate them). -/
theorem minimax_ne_posInf : ∀ (d : ℕ) (map : GameMap) (p : Pt) (gs : List Pt)
    (sts : List ThreatState) (t : Bool) (alpha beta : JNum),
    minimax map d p gs sts t alpha beta ≠ JNum.posInf := by
  intro d
  induction d with
  | zero => intro map p gs sts t alpha beta; simp [minimax]
  | succ d ih =>
    intro map p gs sts t alpha beta
    rw [minimax]
    split
    · simp
    · split
      · exact maxLoop_ne_posInf (fun m a b => ih map _ gs sts false a b) _ _ _ _ (by simp)
      · have h := ih map p ((gs.zip sts).map fun gp => minimaxGhostStep map p gp.2 gp.1)
          sts true alpha beta
        rw [jmin_posInf h]
        exact h

/-- Helper for C4: with `beta = Infinity` and a non-Infinity alpha, the
`beta <= alpha` break can never fire (alpha stays below Infinity), so the
pruned loop equals the no-pruning loop. -/
theorem maxLoop_eq_noPrune {f : Dir → JNum → JNum → JNum} {g : Dir → JNum}
    (hf : ∀ m a, a ≠ JNum.posInf → f m a JNum.posInf = g m)
    (hfne : ∀ m a b, f m a b ≠ JNum.posInf) :
    ∀ (moves : List Dir) (acc alpha : JNum), alpha ≠ JNum.posInf →
      maxLoop f moves acc alpha JNum.posInf = maxLoopNP g moves acc := by
  intro moves
  induction moves with
  | nil => intro acc alpha halpha; rw [maxLoop, maxLoopNP]
  | cons m rest ih =>
    intro acc alpha halpha
    rw [maxLoop, maxLoopNP, hf m alpha halpha]
    have halpha' : jmax alpha (g m) ≠ JNum.posInf := by
      refine jmax_ne_posInf halpha ?_
      rw [← hf m alpha halpha]
      exact hfne m alpha JNum.posInf
    rw [if_neg (by rw [jle_posInf_eq_true halpha']; simp)]
    exact ih _ _ halpha'

/-- Helper for C4: since neither ply ever lowers beta — the opponent ply
has a single deterministic branch and does not update the window — a
search started with `beta = Infinity` keeps `beta = Infinity` throughout,
the pruning test never fires, and alpha-beta minimax computes exactly the
no-pruning minimax value. -/
theorem minimax_eq_noPrune : ∀ (d : ℕ) (map : GameMap) (p : Pt) (gs : List Pt)
    (sts : List ThreatState) (t : Bool) (alpha : JNum), alpha ≠ JNum.posInf →
    minimax map d p gs sts t alpha JNum.posInf = minimaxNoPrune map d p gs sts t := by
  intro d
  induction d with
  | zero => intro map p gs sts t alpha halpha; rw [minimax, minimaxNoPrune]
  | succ d ih =>
    intro map p gs sts t alpha halpha
    simp only [minimax, minimaxNoPrune]
    split
    · rfl
    · split
      · exact @maxLoop_eq_noPrune
          (fun move a b => minimax map d (padd p (delta10 move)) gs sts false a b)
          (fun move => minimaxNoPrune map d (padd p (delta10 move)) gs sts false)
          (fun m a ha => ih map (padd p (delta10 m)) gs sts false a ha)
          (fun m a b => minimax_ne_posInf d map (padd p (delta10 m)) gs sts false a b)
          (getValidMoves map p) JNum.negInf alpha halpha
      · rw [ih map p ((gs.zip sts).map fun gp => minimaxGhostStep map p gp.2 gp.1)
          sts true alpha halpha]

/-- C4: minimax with alpha-beta pruning and minimax without pruning
agree: at every state searched with the full window (the root searches
every child with `(-Infinity, Infinity)`) the values coincide, and the
root controllers select the same best move. -/
theorem alphabeta_eq_minimax :
    (∀ (d : ℕ) (map : GameMap) (p : Pt) (gs : List Pt) (sts : List ThreatState)
        (t : Bool) (alpha : JNum), alpha ≠ JNum.posInf →
        minimax map d p gs sts t alpha JNum.posInf = minimaxNoPrune map d p gs sts t) ∧
    (∀ (map : GameMap) (p : Pt) (gs : List Pt) (sts : List ThreatState) (depth : ℕ)
        (osc : OscState) (lastMove : Dir),
        minimaxController map p gs sts depth osc lastMove =
          minimaxControllerNoPrune map p gs sts depth osc lastMove) := by
  refine ⟨minimax_eq_noPrune, ?_⟩
  intro map p gs sts depth osc lastMove
  have he : ∀ (D : ℕ) (newPos : Pt),
      minimax map D newPos gs sts false JNum.negInf JNum.posInf =
        minimaxNoPrune map D newPos gs sts false :=
    fun D newPos => minimax_eq_noPrune D map newPos gs sts false JNum.negInf (by decide)
  unfold minimaxController minimaxControllerNoPrune
  simp only [he]

/-- Witness for C4 at a concrete depth-3 state. -/
theorem alphabeta_eq_minimax_witness :
    minimax openEmptyMap 3 ⟨0, 0⟩ [⟨40, 0⟩] [⟨false, false⟩] true JNum.negInf JNum.posInf =
      minimaxNoPrune openEmptyMap 3 ⟨0, 0⟩ [⟨40, 0⟩] [⟨false, false⟩] true ∧
    minimaxController openEmptyMap ⟨0, 0⟩ [⟨40, 0⟩] [⟨false, false⟩] 3
        (oscWithHistory []) Dir.none =
      minimaxControllerNoPrune openEmptyMap ⟨0, 0⟩ [⟨40, 0⟩] [⟨false, false⟩] 3
        (oscWithHistory []) Dir.none :=
  ⟨alphabeta_eq_minimax.1 3 openEmptyMap ⟨0, 0⟩ [⟨40, 0⟩] [⟨false, false⟩] true
      JNum.negInf (by decide),
   alphabeta_eq_minimax.2 openEmptyMap ⟨0, 0⟩ [⟨40, 0⟩] [⟨false, false⟩] 3
      (oscWithHistory []) Dir.none⟩

/-- Helper for C5: once the g-score lookup of the expanded node reads as
Infinity — which the `|| Infinity` idiom makes happen for the start node,
whose stored g-score 0 is falsy — every neighbor relaxation computes
`tentativeG = Infinity` and leaves the search state unchanged. -/
theorem processNeighbor_noop {map : GameMap} {goal current : Pt} {st : AStarState}
    (h : jsOrInf (alookup st.gScore current) = ⊤) (nb : Pt) :
    processNeighbor map goal current st nb = st := by
  simp only [processNeighbor]
  split
  · rfl
  · split
    · rfl
    · rw [h]
      have htop : (⊤ : WithTop ℤ) + 1 = ⊤ := by simp
      rw [htop]
      exact if_neg not_top_lt

/-- Helper: folding a function that fixes the accumulator is the identity. -/
theorem foldl_noop {α β : Type} {f : α → β → α} {a : α} (h : ∀ b, f a b = a) :
    ∀ l : List β, l.foldl f a = a := by
  intro l
  induction l with
  | nil => rfl
  | cons x xs ih => rw [List.foldl_cons, h x]; exact ih

/-- C5: the A* search is degenerate on EVERY input: because the start
cell's g-score is 0 and `gScore[key] || Infinity` treats 0 as missing
(0 is falsy in JavaScript), every tentative g-score is Infinity, no
neighbor is ever added to the open set, and the search returns direction
NONE with exactly 1 expanded node — the 500-node cap is unreachable (and
the cap branch, if it could fire, would report 501 nodes, not 500). -/
theorem astar_degenerate (map : GameMap) (s g : Pt) :
    astar map s g = ⟨Dir.none, 1⟩ := by
  unfold astar
  show astarLoop map (toGrid s) (toGrid g) (501 + 1) _ 0 = _
  rw [astarLoop]
  simp only [List.foldl_nil]
  by_cases hgoal : toGrid s = toGrid g
  · rw [if_pos hgoal]
    simp [pathLoop, alookup]
  · rw [if_neg hgoal]
    have hfilter : ([toGrid s].filter (fun nb => !decide (nb = toGrid s))) = [] := by simp
    rw [hfilter]
    have hnoop : ∀ nb, processNeighbor map (toGrid g) (toGrid s)
        (⟨[], [], [(toGrid s, (0 : WithTop ℤ))],
          [(toGrid s, ((tunnelAwareDistance (toGrid s) (toGrid g) : ℤ) : WithTop ℤ))]⟩ : AStarState) nb =
        ⟨[], [], [(toGrid s, (0 : WithTop ℤ))],
          [(toGrid s, ((tunnelAwareDistance (toGrid s) (toGrid g) : ℤ) : WithTop ℤ))]⟩ :=
      fun nb => processNeighbor_noop (by simp [alookup, jsOrInf]) nb
    rw [foldl_noop hnoop]
    rw [if_neg (by norm_num)]
    show astarLoop map (toGrid s) (toGrid g) (500 + 1) _ 1 = _
    rw [astarLoop]

/-- C9: in the spec's tunnel scenario — start at the left tunnel mouth
(grid (0, 10)), goal at the right mouth (grid (18, 10)), the whole tunnel
row walkable — the search returns direction NONE after a single node
expansion instead of LEFT: the degenerate g-score lookup (see C5) makes
the path-reconstruction code, including its tunnel special-case,
unreachable. The (dead) reconstruction mapping itself does send the
tunnel edge (0,10)-(18,10) to LEFT and (18,10)-(0,10) to RIGHT as the
claim states. -/
theorem astar_tunnel_scenario :
    astar tunnelRowMap ⟨0, 100⟩ ⟨180, 100⟩ = ⟨Dir.none, 1⟩ ∧
    firstEdgeDirection ⟨0, 10⟩ ⟨18, 10⟩ = Dir.left ∧
    firstEdgeDirection ⟨18, 10⟩ ⟨0, 10⟩ = Dir.right := by
  refine ⟨by decide, by decide, by decide⟩
